import Mathlib

/-!
Verification of the VAGUE (Word-Imposter-Game) networking core against its
specification.  JavaScript strings are modelled as lists of Unicode code
points (`List Nat`), bytes as `Nat` below 256, and the platform built-ins
used by the code (`btoa`/`atob`, `encodeURIComponent`/`unescape` pipelines,
`JSON.stringify`/`JSON.parse`) are modelled explicitly.  JSON numbers are
modelled as integers, which covers every numeric field of the protocol
(timestamps, round counters, indices).
-/

namespace Vague

/-- Convert a Lean string literal to the list of its Unicode code points
(used only to write concrete JS strings conveniently). -/
def codes (s : String) : List Nat := s.data.map Char.toNat

/-! ### Base64 (`btoa` / `atob`) -/

/-- Character code of the base64 alphabet at index `n` (for `n < 64`). -/
def b64Char (n : Nat) : Nat :=
  if n < 26 then 65 + n
  else if n < 52 then 97 + (n - 26)
  else if n < 62 then 48 + (n - 52)
  else if n = 62 then 43
  else 47

/-- Value of a base64 alphabet character code; `none` for anything else
(including the pad character `=`). -/
def b64Val (c : Nat) : Option Nat :=
  if 65 ≤ c ∧ c ≤ 90 then some (c - 65)
  else if 97 ≤ c ∧ c ≤ 122 then some (c - 97 + 26)
  else if 48 ≤ c ∧ c ≤ 57 then some (c - 48 + 52)
  else if c = 43 then some 62
  else if c = 47 then some 63
  else none

/-- Model of `btoa`: encode a byte list to base64 character codes,
padding the final group with `=` (code 61). -/
def btoaBytes : List Nat → List Nat
  | [] => []
  | [a] => [b64Char (a / 4), b64Char (a % 4 * 16), 61, 61]
  | [a, b] => [b64Char (a / 4), b64Char (a % 4 * 16 + b / 16), b64Char (b % 16 * 4), 61]
  | a :: b :: c :: rest =>
      b64Char (a / 4) :: b64Char (a % 4 * 16 + b / 16) ::
      b64Char (b % 16 * 4 + c / 64) :: b64Char (c % 64) :: btoaBytes rest

/-- Model of `atob` (WHATWG forgiving-base64 decode, without the
whitespace-stripping step, which the tokens in play never need):
pad characters are accepted only in the final four-character group, and
a leftover length of 1 is rejected. -/
def atobBytes : List Nat → Option (List Nat)
  | [] => some []
  | [_] => none
  | [c1, c2] =>
      (b64Val c1).bind fun v1 => (b64Val c2).map fun v2 => [v1 * 4 + v2 / 16]
  | [c1, c2, c3] =>
      (b64Val c1).bind fun v1 => (b64Val c2).bind fun v2 => (b64Val c3).map fun v3 =>
        [v1 * 4 + v2 / 16, v2 % 16 * 16 + v3 / 4]
  | [c1, c2, c3, c4] =>
      if c3 = 61 then
        (if c4 = 61 then
          (b64Val c1).bind fun v1 => (b64Val c2).map fun v2 => [v1 * 4 + v2 / 16]
        else none)
      else if c4 = 61 then
        (b64Val c1).bind fun v1 => (b64Val c2).bind fun v2 => (b64Val c3).map fun v3 =>
          [v1 * 4 + v2 / 16, v2 % 16 * 16 + v3 / 4]
      else
        (b64Val c1).bind fun v1 => (b64Val c2).bind fun v2 =>
        (b64Val c3).bind fun v3 => (b64Val c4).map fun v4 =>
          [v1 * 4 + v2 / 16, v2 % 16 * 16 + v3 / 4, v3 % 4 * 64 + v4]
  | c1 :: c2 :: c3 :: c4 :: r :: rest =>
      (b64Val c1).bind fun v1 => (b64Val c2).bind fun v2 =>
      (b64Val c3).bind fun v3 => (b64Val c4).bind fun v4 =>
      (atobBytes (r :: rest)).map fun tail =>
        (v1 * 4 + v2 / 16) :: (v2 % 16 * 16 + v3 / 4) :: (v3 % 4 * 64 + v4) :: tail

/-! ### UTF-8 (the `unescape(encodeURIComponent s)` / `decodeURIComponent(escape s)` pipelines) -/

/-- UTF-8 encoding of a single Unicode code point. -/
def utf8EncodeChar (c : Nat) : List Nat :=
  if c < 128 then [c]
  else if c < 2048 then [192 + c / 64, 128 + c % 64]
  else if c < 65536 then [224 + c / 4096, 128 + c / 64 % 64, 128 + c % 64]
  else [240 + c / 262144, 128 + c / 4096 % 64, 128 + c / 64 % 64, 128 + c % 64]

/-- UTF-8 encoding of a code-point list: the model of
`unescape(encodeURIComponent s)` for strings without lone surrogates. -/
def utf8Encode : List Nat → List Nat
  | [] => []
  | c :: cs => utf8EncodeChar c ++ utf8Encode cs

/-- Code point of a two-byte UTF-8 sequence; `none` on a bad continuation
byte or an overlong encoding. -/
def utf8Val2 (b1 b2 : Nat) : Option Nat :=
  if 128 ≤ b2 ∧ b2 < 192 then
    if (b1 - 192) * 64 + (b2 - 128) < 128 then none
    else some ((b1 - 192) * 64 + (b2 - 128))
  else none

/-- Code point of a three-byte UTF-8 sequence; `none` on bad continuation
bytes, an overlong encoding or a surrogate. -/
def utf8Val3 (b1 b2 b3 : Nat) : Option Nat :=
  if (128 ≤ b2 ∧ b2 < 192) ∧ (128 ≤ b3 ∧ b3 < 192) then
    if (b1 - 224) * 4096 + (b2 - 128) * 64 + (b3 - 128) < 2048 then none
    else if 55296 ≤ (b1 - 224) * 4096 + (b2 - 128) * 64 + (b3 - 128) ∧
        (b1 - 224) * 4096 + (b2 - 128) * 64 + (b3 - 128) < 57344 then none
    else some ((b1 - 224) * 4096 + (b2 - 128) * 64 + (b3 - 128))
  else none

/-- Code point of a four-byte UTF-8 sequence; `none` on bad continuation
bytes, an overlong encoding or an out-of-range value. -/
def utf8Val4 (b1 b2 b3 b4 : Nat) : Option Nat :=
  if (128 ≤ b2 ∧ b2 < 192) ∧ (128 ≤ b3 ∧ b3 < 192) ∧ (128 ≤ b4 ∧ b4 < 192) then
    if (b1 - 240) * 262144 + (b2 - 128) * 4096 + (b3 - 128) * 64 + (b4 - 128) < 65536 then none
    else if (b1 - 240) * 262144 + (b2 - 128) * 4096 + (b3 - 128) * 64 + (b4 - 128) ≥
        1114112 then none
    else some ((b1 - 240) * 262144 + (b2 - 128) * 4096 + (b3 - 128) * 64 + (b4 - 128))
  else none

/-- Decode one UTF-8-encoded character at the head of the byte list,
returning the code point and the number of bytes consumed (1 to 4);
`none` on a stray or missing continuation byte, an overlong encoding, a
surrogate or an out-of-range value.  Reads beyond the end of the list
yield 0, which never passes a continuation-byte check. -/
def utf8DecodeChar (l : List Nat) : Option (Nat × Nat) :=
  if l.getD 0 0 < 128 then some (l.getD 0 0, 1)
  else if l.getD 0 0 < 192 then none
  else if l.getD 0 0 < 224 then (utf8Val2 (l.getD 0 0) (l.getD 1 0)).map fun c => (c, 2)
  else if l.getD 0 0 < 240 then
    (utf8Val3 (l.getD 0 0) (l.getD 1 0) (l.getD 2 0)).map fun c => (c, 3)
  else if l.getD 0 0 < 248 then
    (utf8Val4 (l.getD 0 0) (l.getD 1 0) (l.getD 2 0) (l.getD 3 0)).map fun c => (c, 4)
  else none

/-- Fueled UTF-8 decoding loop: decode one character, drop the bytes it
consumed, recurse.  One unit of fuel is spent per character, so the byte
count is always sufficient fuel. -/
def utf8DecodeAux : Nat → List Nat → Option (List Nat)
  | _, [] => some []
  | 0, _ :: _ => none
  | fuel + 1, b1 :: rest =>
    (utf8DecodeChar (b1 :: rest)).bind fun ck =>
      (utf8DecodeAux fuel (List.drop (ck.2 - 1) rest)).map (ck.1 :: ·)

/-- Strict UTF-8 decoding (the model of `decodeURIComponent(escape s)`):
rejects stray or missing continuation bytes, overlong encodings,
surrogates and out-of-range values. -/
def utf8Decode (l : List Nat) : Option (List Nat) := utf8DecodeAux l.length l

/-- A Unicode code point valid for the UTF-8 pipeline: in range and not a
surrogate (on lone surrogates `encodeURIComponent` throws, so descriptors
containing them are not valid inputs). -/
def validChar (c : Nat) : Prop := c < 1114112 ∧ ¬(55296 ≤ c ∧ c < 57344)

instance (c : Nat) : Decidable (validChar c) := by unfold validChar; infer_instance

/-- A JS string (code-point list) all of whose characters are valid. -/
def validStr (s : List Nat) : Prop := ∀ c ∈ s, validChar c

instance (s : List Nat) : Decidable (validStr s) := by
  unfold validStr; exact List.decidableBAll _ s

/-! ### Checksum (`utils.js` `checksum`) -/

/-- JavaScript `ToInt32`: wrap an integer into the signed 32-bit range. -/
def toInt32 (n : Int) : Int := (n + 2147483648) % 4294967296 - 2147483648

/-- One step of the rolling hash: the code's `h = ((h << 5) - h + c) | 0`
(`h << 5` is itself a 32-bit operation). -/
def checksumStep (h : Int) (c : Nat) : Int := toInt32 (toInt32 (h * 32) - h + c)

/-- Lowercase hex digit character code for `d < 16`. -/
def hexDigitCode (d : Nat) : Nat := if d < 10 then 48 + d else 87 + d

/-- Hex digits of a positive number, most significant first (empty for 0). -/
def toHexAux : Nat → List Nat
  | 0 => []
  | n + 1 => toHexAux ((n + 1) / 16) ++ [hexDigitCode ((n + 1) % 16)]
decreasing_by exact Nat.div_lt_self (Nat.succ_pos n) (by omega)

/-- Model of JS `n.toString(16)` for unsigned `n`: lowercase hex, no
leading zeros, `"0"` for zero. -/
def toHex (n : Nat) : List Nat := if n = 0 then [48] else toHexAux n

/-- Model of `checksum` from `utils.js`: fold the `((h << 5) - h + c) | 0`
step over the character codes, reinterpret unsigned with `h >>> 0`, and
render as lowercase hex. -/
def checksum (s : List Nat) : List Nat :=
  toHex ((s.foldl checksumStep 0) % 4294967296).toNat

/-! ### JSON values, `JSON.stringify` and `JSON.parse` -/

/-- JSON values.  Object members keep insertion order, as JS objects do;
numbers are modelled as integers (every numeric field of the protocol is
an integer). -/
inductive JValue where
  | null : JValue
  | bool : Bool → JValue
  | num : Int → JValue
  | str : List Nat → JValue
  | arr : List JValue → JValue
  | obj : List (List Nat × JValue) → JValue

/-- Escape of one character inside a JSON string literal, per
`JSON.stringify`: quote, backslash and the five short control escapes get
two-character escapes, other control characters get a `\u00XX` escape,
everything else is emitted verbatim. -/
def escapeChar (c : Nat) : List Nat :=
  if c = 34 then [92, 34]
  else if c = 92 then [92, 92]
  else if c = 8 then [92, 98]
  else if c = 9 then [92, 116]
  else if c = 10 then [92, 110]
  else if c = 12 then [92, 102]
  else if c = 13 then [92, 114]
  else if c < 32 then [92, 117, 48, 48, hexDigitCode (c / 16), hexDigitCode (c % 16)]
  else [c]

/-- Escaped body of a JSON string literal. -/
def escapeBody : List Nat → List Nat
  | [] => []
  | c :: cs => escapeChar c ++ escapeBody cs

/-- Decimal character codes of an integer (JS number-to-string for
integers). -/
def intCodes (n : Int) : List Nat := (toString n).data.map Char.toNat

mutual
/-- Model of `JSON.stringify` (no spacing, insertion-order keys). -/
def jsonStringify : JValue → List Nat
  | .null => codes "null"
  | .bool true => codes "true"
  | .bool false => codes "false"
  | .num n => intCodes n
  | .str s => 34 :: (escapeBody s ++ [34])
  | .arr xs => 91 :: (stringifyElems xs ++ [93])
  | .obj ms => 123 :: (stringifyMembers ms ++ [125])

/-- Comma-separated stringification of array elements. -/
def stringifyElems : List JValue → List Nat
  | [] => []
  | [x] => jsonStringify x
  | x :: y :: rest => jsonStringify x ++ 44 :: stringifyElems (y :: rest)

/-- Comma-separated stringification of object members. -/
def stringifyMembers : List (List Nat × JValue) → List Nat
  | [] => []
  | [(k, v)] => 34 :: (escapeBody k ++ 34 :: 58 :: jsonStringify v)
  | (k, v) :: m :: rest =>
      (34 :: (escapeBody k ++ 34 :: 58 :: jsonStringify v)) ++ 44 :: stringifyMembers (m :: rest)
end

/-- Skip JSON whitespace (space, tab, LF, CR). -/
def skipWs : List Nat → List Nat
  | [] => []
  | c :: rest => if c = 32 ∨ c = 9 ∨ c = 10 ∨ c = 13 then skipWs rest else c :: rest

/-- Value of a hex digit character code, `none` otherwise. -/
def hexVal (c : Nat) : Option Nat :=
  if 48 ≤ c ∧ c ≤ 57 then some (c - 48)
  else if 97 ≤ c ∧ c ≤ 102 then some (c - 97 + 10)
  else if 65 ≤ c ∧ c ≤ 70 then some (c - 65 + 10)
  else none

/-- Parse the body of a JSON string literal (after the opening quote),
returning the decoded characters and the remaining input after the
closing quote. -/
def parseStringBody : List Nat → Option (List Nat × List Nat)
  | [] => none
  | c :: rest =>
    if c = 34 then some ([], rest)
    else if c = 92 then
      match rest with
      | [] => none
      | e :: rest2 =>
        if e = 34 then (parseStringBody rest2).map fun p => (34 :: p.1, p.2)
        else if e = 92 then (parseStringBody rest2).map fun p => (92 :: p.1, p.2)
        else if e = 47 then (parseStringBody rest2).map fun p => (47 :: p.1, p.2)
        else if e = 98 then (parseStringBody rest2).map fun p => (8 :: p.1, p.2)
        else if e = 102 then (parseStringBody rest2).map fun p => (12 :: p.1, p.2)
        else if e = 110 then (parseStringBody rest2).map fun p => (10 :: p.1, p.2)
        else if e = 114 then (parseStringBody rest2).map fun p => (13 :: p.1, p.2)
        else if e = 116 then (parseStringBody rest2).map fun p => (9 :: p.1, p.2)
        else if e = 117 then
          match rest2 with
          | h1 :: h2 :: h3 :: h4 :: rest3 =>
            match hexVal h1, hexVal h2, hexVal h3, hexVal h4 with
            | some a, some b, some c3, some d =>
                (parseStringBody rest3).map fun p => ((((a * 16 + b) * 16 + c3) * 16 + d) :: p.1, p.2)
            | _, _, _, _ => none
          | _ => none
        else none
    else if c < 32 then none
    else (parseStringBody rest).map fun p => (c :: p.1, p.2)

/-- Take a maximal run of decimal digit character codes. -/
def takeDigits : List Nat → List Nat × List Nat
  | [] => ([], [])
  | c :: rest =>
    if 48 ≤ c ∧ c ≤ 57 then
      let p := takeDigits rest
      (c :: p.1, p.2)
    else ([], c :: rest)

/-- Numeric value of a list of decimal digit character codes. -/
def digitsVal (ds : List Nat) : Nat := ds.foldl (fun a c => a * 10 + (c - 48)) 0

mutual
/-- Fueled parser for one JSON value; consumes leading whitespace.
Numbers are integer-only (fractions and exponents are outside the
protocol).  `fuel` bounds the nesting depth explored. -/
def parseValue : Nat → List Nat → Option (JValue × List Nat)
  | 0, _ => none
  | fuel + 1, input =>
    match skipWs input with
    | [] => none
    | c :: rest =>
      if c = 34 then (parseStringBody rest).map fun p => (.str p.1, p.2)
      else if c = 123 then
        match skipWs rest with
        | [] => none
        | c2 :: r2 =>
          if c2 = 125 then some (.obj [], r2)
          else (parseMembers fuel (c2 :: r2)).map fun p => (.obj p.1, p.2)
      else if c = 91 then
        match skipWs rest with
        | [] => none
        | c2 :: r2 =>
          if c2 = 93 then some (.arr [], r2)
          else (parseElems fuel (c2 :: r2)).map fun p => (.arr p.1, p.2)
      else if c = 116 then
        match rest with
        | x1 :: x2 :: x3 :: r2 =>
          if x1 = 114 ∧ x2 = 117 ∧ x3 = 101 then some (.bool true, r2) else none
        | _ => none
      else if c = 102 then
        match rest with
        | x1 :: x2 :: x3 :: x4 :: r2 =>
          if x1 = 97 ∧ x2 = 108 ∧ x3 = 115 ∧ x4 = 101 then some (.bool false, r2) else none
        | _ => none
      else if c = 110 then
        match rest with
        | x1 :: x2 :: x3 :: r2 =>
          if x1 = 117 ∧ x2 = 108 ∧ x3 = 108 then some (.null, r2) else none
        | _ => none
      else if c = 45 then
        match takeDigits rest with
        | ([], _) => none
        | (d :: ds, r2) =>
          if d = 48 ∧ ds ≠ [] then none
          else some (.num (-(digitsVal (d :: ds) : Int)), r2)
      else if 48 ≤ c ∧ c ≤ 57 then
        match takeDigits (c :: rest) with
        | ([], _) => none
        | (d :: ds, r2) =>
          if d = 48 ∧ ds ≠ [] then none
          else some (.num (digitsVal (d :: ds) : Int), r2)
      else none

/-- Fueled parser for the members of a JSON object, consuming the
closing brace. -/
def parseMembers : Nat → List Nat → Option (List (List Nat × JValue) × List Nat)
  | 0, _ => none
  | fuel + 1, input =>
    match skipWs input with
    | [] => none
    | c :: rest =>
      if c = 34 then
        match parseStringBody rest with
        | none => none
        | some (key, r2) =>
          match skipWs r2 with
          | [] => none
          | c3 :: r3 =>
            if c3 = 58 then
              match parseValue fuel r3 with
              | none => none
              | some (v, r4) =>
                match skipWs r4 with
                | [] => none
                | c5 :: r5 =>
                  if c5 = 44 then (parseMembers fuel r5).map fun p => ((key, v) :: p.1, p.2)
                  else if c5 = 125 then some ([(key, v)], r5)
                  else none
            else none
      else none

/-- Fueled parser for the elements of a JSON array, consuming the
closing bracket. -/
def parseElems : Nat → List Nat → Option (List JValue × List Nat)
  | 0, _ => none
  | fuel + 1, input =>
    match parseValue fuel input with
    | none => none
    | some (v, r) =>
      match skipWs r with
      | [] => none
      | c :: r2 =>
        if c = 44 then (parseElems fuel r2).map fun p => (v :: p.1, p.2)
        else if c = 93 then some ([v], r2)
        else none
end

/-- Model of `JSON.parse`: parse one value and require only whitespace to
remain. -/
def jsonParse (input : List Nat) : Option JValue :=
  match parseValue (input.length + 1) input with
  | some (v, rest) => if skipWs rest = [] then some v else none
  | none => none

/-! ### SignalingCodec (`encodeSDP` / `decodeSDP` from `utils.js`) -/

/-- A connection descriptor: the `type` and `sdp` fields read off the
`RTCSessionDescription` by `encodeSDP`. -/
structure Desc where
  type : List Nat
  sdp : List Nat
deriving DecidableEq

/-- The JSON object `{type: d.type, sdp: d.sdp}` built by `encodeSDP`. -/
def descObj (d : Desc) : JValue :=
  .obj [(codes "type", .str d.type), (codes "sdp", .str d.sdp)]

/-- A descriptor whose two strings contain only valid code points. -/
def validDesc (d : Desc) : Prop := validStr d.type ∧ validStr d.sdp

instance (d : Desc) : Decidable (validDesc d) := by unfold validDesc; infer_instance

/-- Model of `encodeSDP`:
`btoa(unescape(encodeURIComponent(JSON.stringify({type, sdp}))))`. -/
def encodeSDP (d : Desc) : List Nat :=
  btoaBytes (utf8Encode (jsonStringify (descObj d)))

/-- Model of `decodeSDP`:
`JSON.parse(decodeURIComponent(escape(atob(encoded))))`; `none` models a
thrown decode error. -/
def decodeSDP (tok : List Nat) : Option JValue :=
  ((atobBytes tok).bind utf8Decode).bind jsonParse

/-! ### Association-list maps with JS `Map` semantics (insertion order, set replaces in place) -/

/-- JS `Map.get`. -/
def mapGet {α : Type} (m : List (List Nat × α)) (k : List Nat) : Option α :=
  match m with
  | [] => none
  | (k', v) :: rest => if k' = k then some v else mapGet rest k

/-- JS `Map.set`: replace in place if the key is present, else append. -/
def mapSet {α : Type} (m : List (List Nat × α)) (k : List Nat) (v : α) :
    List (List Nat × α) :=
  match m with
  | [] => [(k, v)]
  | (k', v') :: rest => if k' = k then (k, v) :: rest else (k', v') :: mapSet rest k v

/-- JS `Map.delete`: remove the entry with the given key (`Map` keys are
unique, so removing every occurrence is equivalent). -/
def mapDelete {α : Type} (m : List (List Nat × α)) (k : List Nat) :
    List (List Nat × α) :=
  match m with
  | [] => []
  | (k', v') :: rest => if k' = k then mapDelete rest k else (k', v') :: mapDelete rest k

/-! ### NetworkManager (`network.js`) -/

/-- `RTCDataChannel.readyState` (`opened` models the `"open"` state). -/
inductive ChannelState where
  | connecting : ChannelState
  | opened : ChannelState
  | closing : ChannelState
  | closed : ChannelState
deriving DecidableEq

/-- ICE connection states relevant to the disconnect handlers. -/
inductive IceState where
  | connected : IceState
  | disconnected : IceState
  | failed : IceState
  | other : IceState
deriving DecidableEq

/-- A host-side peer record: `{pc, ch, name}` (only the channel state and
the name affect the modelled behaviour). -/
structure PeerRecord where
  chState : ChannelState
  name : Option JValue

/-- The registry / connection state of a `NetworkManager`:
`peers`, `pendingPeerId`, the peer-side host channel, the local display
name, and the `_latency` table (a `none` entry models a `NaN` produced by
a non-numeric echoed timestamp). -/
structure NetState where
  peers : List (List Nat × PeerRecord)
  pendingPeerId : Option (List Nat)
  hostCh : Option ChannelState
  localName : List Nat
  latency : List (List Nat × Option Int)

/-- Observable effects of a handler: channel sends and app callbacks. -/
inductive Effect where
  | sendTo : List Nat → JValue → Effect
  | sendHost : JValue → Effect
  | cbMessage : List Nat → JValue → Effect
  | cbPeerConnected : List Nat → Option JValue → Effect
  | cbPeerDisconnected : List Nat → Effect
  | cbConnectedToHost : Effect
  | cbError : List Nat → Effect

/-- Field access `msg.key` on a JSON value (`none` models `undefined`). -/
def jGet (msg : JValue) (key : List Nat) : Option JValue :=
  match msg with
  | .obj ms => mapGet ms key
  | _ => none

/-- The `msg.type` string used by the `switch` dispatch; `none` when the
field is missing or not a string (such messages fall through to the
default branch). -/
def jType (msg : JValue) : Option (List Nat) :=
  match jGet msg (codes "type") with
  | some (.str s) => some s
  | _ => none

/-- The value of `msg.ts ?? 0` coerced to a number: missing or `null`
gives 0, a number gives itself, anything else is `NaN` (`none`). -/
def tsCoerce (msg : JValue) : Option Int :=
  match jGet msg (codes "ts") with
  | none => some 0
  | some .null => some 0
  | some (.num t) => some t
  | some _ => none

/-- The latency value stored on a `pong`: `Date.now() - (msg.ts ?? 0)`. -/
def latVal (now : Int) (msg : JValue) : Option Int :=
  (tsCoerce msg).map fun t => now - t

/-- The reply `{type:'pong', ts: msg.ts}`; a missing `ts` is dropped by
`JSON.stringify`, so it is omitted from the envelope. -/
def pongReply (msg : JValue) : JValue :=
  .obj ((codes "type", .str (codes "pong")) ::
    (match jGet msg (codes "ts") with
     | some v => [(codes "ts", v)]
     | none => []))

/-- Model of `sendToPeer`: emit only when the peer exists and its channel
is open (best-effort, silent no-op otherwise). -/
def sendToPeerF (st : NetState) (peerId : List Nat) (msg : JValue) : List Effect :=
  match mapGet st.peers peerId with
  | some p => if p.chState = .opened then [.sendTo peerId msg] else []
  | none => []

/-- Model of `sendToHost`: emit only when the host channel is open. -/
def sendToHostF (st : NetState) (msg : JValue) : List Effect :=
  match st.hostCh with
  | some .opened => [.sendHost msg]
  | _ => []

/-- Model of `broadcast`: send to every peer whose channel is open, in
map order. -/
def broadcastF (st : NetState) (msg : JValue) : List Effect :=
  st.peers.foldr (fun p acc => if p.2.chState = .opened then .sendTo p.1 msg :: acc else acc) []

/-- Model of `_handleHostMessage`: built-in handling of `hello`, `pong`
and `ping`, everything else forwarded to `onMessage` tagged with the
sender id. -/
def handleHostMessage (st : NetState) (peerId : List Nat) (msg : JValue) (now : Int) :
    NetState × List Effect :=
  if jType msg = some (codes "hello") then
    let st' :=
      match mapGet st.peers peerId with
      | some p => { st with peers := mapSet st.peers peerId { p with name := jGet msg (codes "name") } }
      | none => st
    let welcome : JValue := .obj [(codes "type", .str (codes "welcome")),
      (codes "version", .num 1), (codes "peerId", .str peerId)]
    (st', sendToPeerF st' peerId welcome ++ [.cbPeerConnected peerId (jGet msg (codes "name"))])
  else if jType msg = some (codes "pong") then
    ({ st with latency := mapSet st.latency peerId (latVal now msg) }, [])
  else if jType msg = some (codes "ping") then
    (st, sendToPeerF st peerId (pongReply msg))
  else
    (st, [.cbMessage peerId msg])

/-- Model of `_handlePeerMessage`: built-in handling of `welcome`, `ping`
and `pong`, everything else forwarded to `onMessage` tagged `'host'`. -/
def handlePeerMessage (st : NetState) (msg : JValue) (now : Int) :
    NetState × List Effect :=
  if jType msg = some (codes "welcome") then
    (st, [.cbConnectedToHost])
  else if jType msg = some (codes "ping") then
    (st, sendToHostF st (pongReply msg))
  else if jType msg = some (codes "pong") then
    ({ st with latency := mapSet st.latency (codes "host") (latVal now msg) }, [])
  else
    (st, [.cbMessage (codes "host") msg])

/-- Model of the host-side `ch.onmessage` handler: `JSON.parse` inside a
`try`, so an unparseable frame is dropped with no effect. -/
def hostOnFrame (st : NetState) (peerId : List Nat) (frame : List Nat) (now : Int) :
    NetState × List Effect :=
  match jsonParse frame with
  | none => (st, [])
  | some msg => handleHostMessage st peerId msg now

/-- Model of the peer-side `ch.onmessage` handler. -/
def peerOnFrame (st : NetState) (frame : List Nat) (now : Int) :
    NetState × List Effect :=
  match jsonParse frame with
  | none => (st, [])
  | some msg => handlePeerMessage st msg now

/-- Model of `_handlePeerDisconnect` (host side): a no-op when the record
is already absent, otherwise close and remove the record and fire
`onPeerDisconnected` once. -/
def handlePeerDisconnect (st : NetState) (peerId : List Nat) :
    NetState × List Effect :=
  match mapGet st.peers peerId with
  | none => (st, [])
  | some _ => ({ st with peers := mapDelete st.peers peerId }, [.cbPeerDisconnected peerId])

/-- Host-side `oniceconnectionstatechange`: disconnect on
`disconnected`/`failed`. -/
def hostIceStateChange (st : NetState) (peerId : List Nat) (ice : IceState) :
    NetState × List Effect :=
  if ice = .disconnected ∨ ice = .failed then handlePeerDisconnect st peerId else (st, [])

/-- Host-side `ch.onclose` / `ch.onerror`: both call
`_handlePeerDisconnect`. -/
def hostChannelClose (st : NetState) (peerId : List Nat) : NetState × List Effect :=
  handlePeerDisconnect st peerId

/-- Peer-side `oniceconnectionstatechange` (inside `createAnswer`): fire
`onPeerDisconnected('host')` on `disconnected`/`failed`, with no guard. -/
def peerIceStateChange (st : NetState) (ice : IceState) : NetState × List Effect :=
  if ice = .disconnected ∨ ice = .failed then (st, [.cbPeerDisconnected (codes "host")])
  else (st, [])

/-- Peer-side `ch.onclose` (inside `_setupPeerChannel`): fire
`onPeerDisconnected('host')`, with no guard. -/
def peerChannelClose (st : NetState) : NetState × List Effect :=
  (st, [.cbPeerDisconnected (codes "host")])

/-- Model of `createOffer`: the fresh peer id and the negotiated local
descriptor are inputs (they come from `generateId()` and the WebRTC
engine).  A new record with a connecting channel is stored and the
pending slot is set to the new id; the offer token is the encoded local
descriptor. -/
def createOffer (st : NetState) (newId : List Nat) (d : Desc) :
    NetState × List Nat × List Nat :=
  ({ st with
      peers := mapSet st.peers newId { chState := .connecting, name := none },
      pendingPeerId := some newId },
   newId, encodeSDP d)

/-- Errors thrown by `acceptAnswer`. -/
inductive AcceptErr where
  | noPending : AcceptErr
  | decodeFailed : AcceptErr
deriving DecidableEq

/-- Model of `acceptAnswer`: look up `peers.get(pendingPeerId)`; throw
`'No pending peer connection.'` if absent, then decode the token and
apply it as remote description.  No registry field is written on
success. -/
def acceptAnswer (st : NetState) (tok : List Nat) : Option AcceptErr × NetState :=
  match st.pendingPeerId with
  | none => (some .noPending, st)
  | some id =>
    match mapGet st.peers id with
    | none => (some .noPending, st)
    | some _ =>
      match decodeSDP tok with
      | none => (some .decodeFailed, st)
      | some _ => (none, st)

/-- The pending slot is empty: `pendingPeerId` is null or names no record
(in both cases `peers.get` yields `undefined`). -/
def pendingEmpty (st : NetState) : Prop :=
  st.pendingPeerId.bind (fun id => mapGet st.peers id) = none

/-! ### Game state and `serialiseForSync` (`state.js`) -/

/-- The `{word, hint}` pair of the current word. -/
structure WordEntry where
  word : List Nat
  hint : List Nat

/-- An online peer entry `{id, name, ready}`. -/
structure OnlinePeer where
  id : List Nat
  name : List Nat
  ready : Bool

/-- The game-state singleton of `state.js`. -/
structure GameState where
  mode : List Nat
  players : List (List Nat)
  category : List Nat
  currentWord : Option WordEntry
  imposterIndex : Int
  currentPlayerIndex : Int
  isRoleRevealed : Bool
  currentPhase : List Nat
  round : Int
  usedWords : List (List Nat)
  cluePlayerIndex : Int
  startingPlayerIndex : Int
  timerSeconds : Int
  timerRunning : Bool
  localPlayerName : List Nat
  isHost : Bool
  onlinePeers : List OnlinePeer
  localIsImposter : Bool
  localWord : Option (List Nat)
  localHint : Option (List Nat)
  hostReady : Bool

/-- Model of `serialiseForSync`: the nine non-secret fields, as the JSON
object the code builds. -/
def serialiseForSync (s : GameState) : JValue :=
  .obj [
    (codes "players", .arr (s.players.map .str)),
    (codes "category", .str s.category),
    (codes "currentPhase", .str s.currentPhase),
    (codes "round", .num s.round),
    (codes "currentPlayerIndex", .num s.currentPlayerIndex),
    (codes "cluePlayerIndex", .num s.cluePlayerIndex),
    (codes "startingPlayerIndex", .num s.startingPlayerIndex),
    (codes "timerSeconds", .num s.timerSeconds),
    (codes "timerRunning", .bool s.timerRunning)]

/-- The `sync` envelope broadcast by each tick of `startSyncLoop`:
`{type:'sync', version, state, checksum(JSON.stringify(state))}`. -/
def syncMessage (s : GameState) : JValue :=
  .obj [(codes "type", .str (codes "sync")),
    (codes "version", .num 1),
    (codes "state", serialiseForSync s),
    (codes "checksum", .str (checksum (jsonStringify (serialiseForSync s))))]

/-- One tick of the host sync loop: broadcast the sync envelope for the
snapshot fetched from the collaborator. -/
def syncTick (st : NetState) (s : GameState) : List Effect :=
  broadcastF st (syncMessage s)

/-! ## Lemmas: base64 round trip -/

theorem b64Char_ne_pad (x : Nat) : b64Char x ≠ 61 := by
  unfold b64Char; split_ifs <;> omega

theorem b64Val_b64Char : ∀ x < 64, b64Val (b64Char x) = some x := by decide

theorem btoaBytes_cons (r : Nat) (rs : List Nat) : ∃ y ys, btoaBytes (r :: rs) = y :: ys := by
  match rs with
  | [] => exact ⟨_, _, rfl⟩
  | [_] => exact ⟨_, _, rfl⟩
  | _ :: _ :: _ => exact ⟨_, _, rfl⟩

/-- Decoding inverts encoding on byte lists. -/
theorem atob_btoa (bs : List Nat) : (∀ b ∈ bs, b < 256) → atobBytes (btoaBytes bs) = some bs := by
  induction bs using btoaBytes.induct with
  | case1 => intro _; rfl
  | case2 a =>
    intro hb
    have ha : a < 256 := hb a (by simp)
    show atobBytes [b64Char (a / 4), b64Char (a % 4 * 16), 61, 61] = some [a]
    simp only [atobBytes, if_pos rfl]
    rw [b64Val_b64Char _ (by omega), b64Val_b64Char _ (by omega)]
    simp only [Option.some_bind, Option.map_some']
    simp
    omega
  | case3 a b =>
    intro hb
    have ha : a < 256 := hb a (by simp)
    have hbb : b < 256 := hb b (by simp)
    show atobBytes [b64Char (a / 4), b64Char (a % 4 * 16 + b / 16), b64Char (b % 16 * 4), 61]
        = some [a, b]
    simp only [atobBytes, if_neg (b64Char_ne_pad _), if_pos rfl]
    rw [b64Val_b64Char _ (by omega), b64Val_b64Char _ (by omega), b64Val_b64Char _ (by omega)]
    simp only [Option.some_bind, Option.map_some']
    simp
    constructor <;> omega
  | case4 a b c rest ih =>
    intro hb
    have ha : a < 256 := hb a (by simp)
    have hbb : b < 256 := hb b (by simp)
    have hc : c < 256 := hb c (by simp)
    have hrest : ∀ x ∈ rest, x < 256 := fun x hx => hb x (by simp [hx])
    match rest with
    | [] =>
      show atobBytes [b64Char (a / 4), b64Char (a % 4 * 16 + b / 16),
          b64Char (b % 16 * 4 + c / 64), b64Char (c % 64)] = some [a, b, c]
      simp only [atobBytes, if_neg (b64Char_ne_pad _)]
      rw [b64Val_b64Char _ (by omega), b64Val_b64Char _ (by omega),
        b64Val_b64Char _ (by omega), b64Val_b64Char _ (by omega)]
      simp only [Option.some_bind, Option.map_some']
      have h1 : a / 4 * 4 + (a % 4 * 16 + b / 16) / 16 = a := by omega
      have h2 : (a % 4 * 16 + b / 16) % 16 * 16 + (b % 16 * 4 + c / 64) / 4 = b := by omega
      have h3 : (b % 16 * 4 + c / 64) % 4 * 64 + c % 64 = c := by omega
      rw [h1, h2, h3]
    | r :: rs =>
      obtain ⟨y, ys, hy⟩ := btoaBytes_cons r rs
      have hshape : btoaBytes (a :: b :: c :: r :: rs)
          = b64Char (a / 4) :: b64Char (a % 4 * 16 + b / 16) ::
            b64Char (b % 16 * 4 + c / 64) :: b64Char (c % 64) :: y :: ys := by
        rw [btoaBytes, hy]
      rw [hshape]
      simp only [atobBytes]
      rw [b64Val_b64Char _ (by omega), b64Val_b64Char _ (by omega),
        b64Val_b64Char _ (by omega), b64Val_b64Char _ (by omega)]
      rw [← hy, ih hrest]
      simp only [Option.some_bind, Option.map_some']
      have h1 : a / 4 * 4 + (a % 4 * 16 + b / 16) / 16 = a := by omega
      have h2 : (a % 4 * 16 + b / 16) % 16 * 16 + (b % 16 * 4 + c / 64) / 4 = b := by omega
      have h3 : (b % 16 * 4 + c / 64) % 4 * 64 + c % 64 = c := by omega
      rw [h1, h2, h3]

/-! ## Lemmas: UTF-8 round trip -/

theorem utf8EncodeChar_lt (c : Nat) (hc : validChar c) :
    ∀ b ∈ utf8EncodeChar c, b < 256 := by
  intro b hb
  unfold utf8EncodeChar at hb
  unfold validChar at hc
  split_ifs at hb <;> simp at hb <;> omega

theorem utf8Encode_lt (s : List Nat) (hs : validStr s) :
    ∀ b ∈ utf8Encode s, b < 256 := by
  induction s with
  | nil => intro b hb; simp [utf8Encode] at hb
  | cons c cs ih =>
    intro b hb
    rw [utf8Encode, List.mem_append] at hb
    rcases hb with h | h
    · exact utf8EncodeChar_lt c (hs c (by simp)) b h
    · exact ih (fun x hx => hs x (by simp [hx])) b h

theorem utf8DecodeAux_cons (fuel b1 : Nat) (rest : List Nat) :
    utf8DecodeAux (fuel + 1) (b1 :: rest) =
      (utf8DecodeChar (b1 :: rest)).bind fun ck =>
        (utf8DecodeAux fuel (List.drop (ck.2 - 1) rest)).map (ck.1 :: ·) := rfl

/-- Decoding a stream that starts with an encoded valid character strips
that character. -/
theorem utf8DecodeChar_enc (c : Nat) (hc : validChar c) (tail : List Nat) :
    utf8DecodeChar (utf8EncodeChar c ++ tail)
      = some (c, (utf8EncodeChar c).length) := by
  unfold validChar at hc
  unfold utf8EncodeChar
  split_ifs with h1 h2 h3
  · simp only [List.cons_append, List.nil_append, utf8DecodeChar, List.getD_cons_zero]
    rw [if_pos h1]
    rfl
  · simp only [List.cons_append, List.nil_append, utf8DecodeChar,
      List.getD_cons_zero, List.getD_cons_succ]
    have n1 : ¬(192 + c / 64 < 128) := by omega
    have n2 : ¬(192 + c / 64 < 192) := by omega
    have p3 : 192 + c / 64 < 224 := by omega
    rw [if_neg n1, if_neg n2, if_pos p3]
    unfold utf8Val2
    rw [if_pos (by omega : 128 ≤ 128 + c % 64 ∧ 128 + c % 64 < 192)]
    rw [show (192 + c / 64 - 192) * 64 + (128 + c % 64 - 128) = c from by omega]
    rw [if_neg (by omega)]
    rfl
  · simp only [List.cons_append, List.nil_append, utf8DecodeChar,
      List.getD_cons_zero, List.getD_cons_succ]
    have n1 : ¬(224 + c / 4096 < 128) := by omega
    have n2 : ¬(224 + c / 4096 < 192) := by omega
    have n3 : ¬(224 + c / 4096 < 224) := by omega
    have p4 : 224 + c / 4096 < 240 := by omega
    rw [if_neg n1, if_neg n2, if_neg n3, if_pos p4]
    unfold utf8Val3
    rw [if_pos (by constructor <;> omega :
      (128 ≤ 128 + c / 64 % 64 ∧ 128 + c / 64 % 64 < 192) ∧ 128 ≤ 128 + c % 64 ∧ 128 + c % 64 < 192)]
    rw [show (224 + c / 4096 - 224) * 4096 + (128 + c / 64 % 64 - 128) * 64 + (128 + c % 64 - 128) = c
      from by omega]
    rw [if_neg (by omega), if_neg (by omega)]
    rfl
  · simp only [List.cons_append, List.nil_append, utf8DecodeChar,
      List.getD_cons_zero, List.getD_cons_succ]
    have n1 : ¬(240 + c / 262144 < 128) := by omega
    have n2 : ¬(240 + c / 262144 < 192) := by omega
    have n3 : ¬(240 + c / 262144 < 224) := by omega
    have n4 : ¬(240 + c / 262144 < 240) := by omega
    have p5 : 240 + c / 262144 < 248 := by omega
    rw [if_neg n1, if_neg n2, if_neg n3, if_neg n4, if_pos p5]
    unfold utf8Val4
    rw [if_pos (by refine ⟨⟨?_, ?_⟩, ⟨?_, ?_⟩, ?_, ?_⟩ <;> omega :
      (128 ≤ 128 + c / 4096 % 64 ∧ 128 + c / 4096 % 64 < 192) ∧
      (128 ≤ 128 + c / 64 % 64 ∧ 128 + c / 64 % 64 < 192) ∧
      128 ≤ 128 + c % 64 ∧ 128 + c % 64 < 192)]
    rw [show (240 + c / 262144 - 240) * 262144 + (128 + c / 4096 % 64 - 128) * 4096
        + (128 + c / 64 % 64 - 128) * 64 + (128 + c % 64 - 128) = c from by omega]
    rw [if_neg (by omega), if_neg (by omega)]
    rfl

theorem utf8DecodeAux_enc (s : List Nat) :
    validStr s → ∀ (fuel : Nat) (tail : List Nat),
      utf8DecodeAux (s.length + fuel) (utf8Encode s ++ tail)
        = (utf8DecodeAux fuel tail).map (s ++ ·) := by
  induction s with
  | nil =>
    intro _ fuel tail
    simp [utf8Encode]
  | cons c cs ih =>
    intro hs fuel tail
    have hc : validChar c := hs c (by simp)
    have hcs : validStr cs := fun x hx => hs x (by simp [hx])
    have hlen : (c :: cs).length + fuel = (cs.length + fuel) + 1 := by
      simp only [List.length_cons]; omega
    rw [hlen, utf8Encode, List.append_assoc]
    obtain ⟨y, ys, hy⟩ : ∃ y ys, utf8EncodeChar c ++ (utf8Encode cs ++ tail) = y :: ys := by
      unfold utf8EncodeChar
      split_ifs <;> exact ⟨_, _, rfl⟩
    rw [hy, utf8DecodeAux_cons, ← hy, utf8DecodeChar_enc c hc]
    simp only [Option.some_bind]
    have hdrop : ∀ X : List Nat,
        List.drop ((utf8EncodeChar c).length - 1) (List.tail (utf8EncodeChar c ++ X)) = X := by
      intro X
      unfold utf8EncodeChar
      split_ifs <;> simp
    have htail : ys = List.tail (utf8EncodeChar c ++ (utf8Encode cs ++ tail)) := by
      rw [hy]; rfl
    rw [show ((c, (utf8EncodeChar c).length).2 - 1) = (utf8EncodeChar c).length - 1 from rfl,
      htail, hdrop, ih hcs fuel tail]
    cases utf8DecodeAux fuel tail <;> simp

theorem utf8Encode_length_ge (s : List Nat) : s.length ≤ (utf8Encode s).length := by
  induction s with
  | nil => simp [utf8Encode]
  | cons c cs ih =>
    rw [utf8Encode, List.length_append]
    have : 1 ≤ (utf8EncodeChar c).length := by
      unfold utf8EncodeChar; split_ifs <;> simp
    simp only [List.length_cons]
    omega

/-- UTF-8 round trip on valid strings. -/
theorem utf8Decode_encode (s : List Nat) (hs : validStr s) :
    utf8Decode (utf8Encode s) = some s := by
  have hge : s.length ≤ (utf8Encode s).length := utf8Encode_length_ge s
  unfold utf8Decode
  have h1 : (utf8Encode s).length = s.length + ((utf8Encode s).length - s.length) := by omega
  have h2 : utf8Encode s = utf8Encode s ++ [] := by simp
  rw [h1]
  conv_lhs => rw [h2]
  rw [utf8DecodeAux_enc s hs]
  simp [utf8DecodeAux]

theorem hexVal_hexDigitCode : ∀ d < 16, hexVal (hexDigitCode d) = some d := by decide

theorem parseStringBody_quote (rest : List Nat) :
    parseStringBody (34 :: rest) = some ([], rest) := by
  rw [parseStringBody.eq_def]
  simp only []
  rw [if_pos (by trivial)]

theorem parse_escapeBody (s : List Nat) :
    ∀ rest : List Nat, parseStringBody (escapeBody s ++ 34 :: rest) = some (s, rest) := by
  induction s with
  | nil =>
    intro rest
    rw [escapeBody, List.nil_append, parseStringBody_quote]
  | cons c cs ih =>
    intro rest
    rw [escapeBody, List.append_assoc]
    unfold escapeChar
    split_ifs with h1 h2 h3 h4 h5 h6 h7 h8
    · subst h1
      simp only [List.cons_append, List.nil_append]
      rw [parseStringBody.eq_def]
      simp only []
      rw [if_neg (by decide), if_pos (by trivial), if_pos (by trivial), ih rest]
      rfl
    · subst h2
      simp only [List.cons_append, List.nil_append]
      rw [parseStringBody.eq_def]
      simp only []
      rw [if_neg (by decide), if_pos (by trivial), if_neg (by decide), if_pos (by trivial), ih rest]
      rfl
    · subst h3
      simp only [List.cons_append, List.nil_append]
      rw [parseStringBody.eq_def]
      simp only []
      rw [if_neg (by decide), if_pos (by trivial), if_neg (by decide), if_neg (by decide),
        if_neg (by decide), if_pos (by trivial), ih rest]
      rfl
    · subst h4
      simp only [List.cons_append, List.nil_append]
      rw [parseStringBody.eq_def]
      simp only []
      rw [if_neg (by decide), if_pos (by trivial), if_neg (by decide), if_neg (by decide),
        if_neg (by decide), if_neg (by decide), if_neg (by decide), if_neg (by decide),
        if_neg (by decide), if_pos (by trivial), ih rest]
      rfl
    · subst h5
      simp only [List.cons_append, List.nil_append]
      rw [parseStringBody.eq_def]
      simp only []
      rw [if_neg (by decide), if_pos (by trivial), if_neg (by decide), if_neg (by decide),
        if_neg (by decide), if_neg (by decide), if_neg (by decide), if_pos (by trivial), ih rest]
      rfl
    · subst h6
      simp only [List.cons_append, List.nil_append]
      rw [parseStringBody.eq_def]
      simp only []
      rw [if_neg (by decide), if_pos (by trivial), if_neg (by decide), if_neg (by decide),
        if_neg (by decide), if_neg (by decide), if_pos (by trivial), ih rest]
      rfl
    · subst h7
      simp only [List.cons_append, List.nil_append]
      rw [parseStringBody.eq_def]
      simp only []
      rw [if_neg (by decide), if_pos (by trivial), if_neg (by decide), if_neg (by decide),
        if_neg (by decide), if_neg (by decide), if_neg (by decide), if_neg (by decide),
        if_pos (by trivial), ih rest]
      rfl
    · -- low control character, encoded as a unicode escape
      simp only [List.cons_append, List.nil_append]
      rw [parseStringBody.eq_def]
      simp only []
      rw [if_neg (by decide), if_pos (by trivial), if_neg (by decide), if_neg (by decide),
        if_neg (by decide), if_neg (by decide), if_neg (by decide), if_neg (by decide),
        if_neg (by decide), if_neg (by decide), if_pos (by trivial)]
      rw [show hexVal 48 = some 0 from rfl,
        hexVal_hexDigitCode (c / 16) (by omega), hexVal_hexDigitCode (c % 16) (by omega)]
      simp only []
      rw [ih rest]
      simp only [Option.map_some']
      rw [show ((0 * 16 + 0) * 16 + c / 16) * 16 + c % 16 = c from by omega]
    · -- plain character
      simp only [List.cons_append, List.nil_append]
      rw [parseStringBody.eq_def]
      simp only []
      rw [if_neg h1, if_neg h2, if_neg h8, ih rest]
      rfl


theorem stringify_desc (d : Desc) :
    jsonStringify (descObj d) =
      123 :: (((34 :: (escapeBody (codes "type") ++ 34 :: 58 ::
          (34 :: (escapeBody d.type ++ [34])))) ++
        44 :: (34 :: (escapeBody (codes "sdp") ++ 34 :: 58 ::
          (34 :: (escapeBody d.sdp ++ [34]))))) ++ [125]) := rfl




theorem skipWs_34 (r : List Nat) : skipWs (34 :: r) = 34 :: r := rfl
theorem skipWs_44 (r : List Nat) : skipWs (44 :: r) = 44 :: r := rfl
theorem skipWs_58 (r : List Nat) : skipWs (58 :: r) = 58 :: r := rfl
theorem skipWs_123 (r : List Nat) : skipWs (123 :: r) = 123 :: r := rfl
theorem skipWs_125 (r : List Nat) : skipWs (125 :: r) = 125 :: r := rfl

theorem parseValue_str (g : Nat) (s tail : List Nat) :
    parseValue (g + 1) (34 :: (escapeBody s ++ 34 :: tail)) = some (.str s, tail) := by
  rw [parseValue.eq_def]
  simp only []
  rw [skipWs_34]
  simp only []
  rw [if_pos (by trivial), parse_escapeBody s tail]
  rfl

theorem parseMembers_last (g : Nat) (k s : List Nat) :
    parseMembers (g + 2)
      (34 :: (escapeBody k ++ 34 :: 58 :: 34 :: (escapeBody s ++ [34, 125])))
      = some ([(k, .str s)], []) := by
  rw [parseMembers.eq_def]
  simp only []
  rw [skipWs_34]
  simp only []
  rw [if_pos (by trivial), parse_escapeBody k (58 :: 34 :: (escapeBody s ++ [34, 125]))]
  simp only []
  rw [skipWs_58]
  simp only []
  rw [if_pos (by trivial)]
  rw [parseValue_str g s [125]]
  simp only []
  rw [skipWs_125]
  simp only []
  rw [if_neg (by omega), if_pos (by trivial)]

theorem parseMembers_desc (g : Nat) (k1 s1 k2 s2 : List Nat) :
    parseMembers (g + 3)
      (34 :: (escapeBody k1 ++ 34 :: 58 :: 34 :: (escapeBody s1 ++ 34 :: 44 ::
        34 :: (escapeBody k2 ++ 34 :: 58 :: 34 :: (escapeBody s2 ++ [34, 125])))))
      = some ([(k1, .str s1), (k2, .str s2)], []) := by
  rw [parseMembers.eq_def]
  simp only []
  rw [skipWs_34]
  simp only []
  rw [if_pos (by trivial),
    parse_escapeBody k1 (58 :: 34 :: (escapeBody s1 ++ 34 :: 44 ::
      34 :: (escapeBody k2 ++ 34 :: 58 :: 34 :: (escapeBody s2 ++ [34, 125]))))]
  simp only []
  rw [skipWs_58]
  simp only []
  rw [if_pos (by trivial)]
  rw [parseValue_str (g + 1) s1]
  simp only []
  rw [skipWs_44]
  simp only []
  rw [if_pos (by trivial), parseMembers_last g k2 s2]
  rfl

theorem parseValue_desc (g : Nat) (d : Desc) :
    parseValue (g + 4) (jsonStringify (descObj d)) = some (descObj d, []) := by
  have h := stringify_desc d
  simp only [List.cons_append, List.nil_append, List.append_assoc] at h
  rw [h, parseValue.eq_def]
  simp only []
  rw [skipWs_123]
  simp only []
  rw [if_neg (by omega), if_pos (by trivial)]
  rw [skipWs_34]
  simp only []
  rw [if_neg (by omega), parseMembers_desc g (codes "type") d.type (codes "sdp") d.sdp]
  rfl

theorem jsonParse_stringify_desc (d : Desc) :
    jsonParse (jsonStringify (descObj d)) = some (descObj d) := by
  have hlen : 3 ≤ (jsonStringify (descObj d)).length := by
    rw [stringify_desc d]
    simp [List.length_append]
    omega
  obtain ⟨g, hg⟩ : ∃ g, (jsonStringify (descObj d)).length + 1 = g + 4 :=
    ⟨(jsonStringify (descObj d)).length - 3, by omega⟩
  unfold jsonParse
  rw [hg, parseValue_desc g d]
  rfl


theorem escapeChar_valid (c : Nat) (hc : validChar c) : validStr (escapeChar c) := by
  unfold escapeChar
  split_ifs with h1 h2 h3 h4 h5 h6 h7 h8
  · decide
  · decide
  · decide
  · decide
  · decide
  · decide
  · decide
  · intro x hx
    simp [hexDigitCode] at hx
    rcases hx with h | h | h | h | h <;> subst h <;>
      first
        | (unfold validChar; split_ifs <;> omega)
        | (unfold validChar; omega)
  · intro x hx
    simp at hx
    subst hx
    exact hc

theorem escapeBody_valid (s : List Nat) (hs : validStr s) : validStr (escapeBody s) := by
  induction s with
  | nil => intro x hx; simp [escapeBody] at hx
  | cons c cs ih =>
    intro x hx
    rw [escapeBody, List.mem_append] at hx
    rcases hx with h | h
    · exact escapeChar_valid c (hs c (by simp)) x h
    · exact ih (fun y hy => hs y (by simp [hy])) x h

theorem validStr_stringify_desc (d : Desc) (h1 : validStr d.type) (h2 : validStr d.sdp) :
    validStr (jsonStringify (descObj d)) := by
  have h := stringify_desc d
  simp only [List.cons_append, List.nil_append, List.append_assoc] at h
  rw [h]
  intro c hc
  simp only [List.mem_cons, List.mem_append] at hc
  have hkt : validStr (escapeBody (codes "type")) := by decide
  have hks : validStr (escapeBody (codes "sdp")) := by decide
  rcases hc with h | h | h | h | h | h | h | h | h | h | h | h | h | h | h | h | h | h | h
  all_goals first
    | (subst h; decide)
    | (exact hkt c h)
    | (exact hks c h)
    | (exact escapeBody_valid d.type h1 c h)
    | (exact escapeBody_valid d.sdp h2 c h)


/-- C1 (claim): for every valid connection descriptor, decoding the
encoded token recovers exactly the object with the original type and sdp. -/
theorem sdp_roundtrip (d : Desc) (h1 : validStr d.type) (h2 : validStr d.sdp) :
    decodeSDP (encodeSDP d) = some (descObj d) := by
  have hv := validStr_stringify_desc d h1 h2
  unfold decodeSDP encodeSDP
  rw [atob_btoa _ (utf8Encode_lt _ hv)]
  simp only [Option.some_bind]
  rw [utf8Decode_encode _ hv]
  simp only [Option.some_bind]
  exact jsonParse_stringify_desc d

theorem sdp_roundtrip_witness :
    validStr (codes "offer") ∧ validStr (codes "v=0") ∧
      decodeSDP (encodeSDP ⟨codes "offer", codes "v=0"⟩)
        = some (descObj ⟨codes "offer", codes "v=0"⟩) :=
  ⟨by decide, by decide, sdp_roundtrip ⟨codes "offer", codes "v=0"⟩ (by decide) (by decide)⟩

theorem chk_inv (s : List Nat) :
    ∀ (h : Int) (hn : Nat), -2147483648 ≤ h → h < 2147483648 →
      h % 4294967296 = (hn : Int) → hn < 4294967296 →
      (s.foldl checksumStep h) % 4294967296
        = ((s.foldl (fun a c => (a * 31 + c) % 4294967296) hn : Nat) : Int) := by
  induction s with
  | nil => intro h hn _ _ hm _; simpa using hm
  | cons c cs ih =>
    intro h hn hlo hhi hm hb
    rw [List.foldl_cons, List.foldl_cons]
    apply ih
    · unfold checksumStep toInt32; omega
    · unfold checksumStep toInt32; omega
    · unfold checksumStep toInt32
      push_cast
      omega
    · omega

/-- C2 (claim): the checksum equals the 31-fold rolling hash modulo two
to the 32, rendered in lowercase hex. -/
theorem checksum_spec (s : List Nat) :
    checksum s = toHex (s.foldl (fun h c => (h * 31 + c) % 4294967296) 0) := by
  unfold checksum
  rw [chk_inv s 0 0 (by omega) (by omega) (by simp) (by omega)]
  simp

/-- C9 counterexample: a token whose payload is the JSON number 42 is
returned as a value (with no type field), not rejected. -/
theorem decodeSDP_no_shape_check :
    decodeSDP (codes "NDI=") = some (.num 42) ∧ jGet (.num 42) (codes "type") = none := by
  constructor <;> rfl

/-- C9 (amended): a failure at any stage of the decoding pipeline makes
decodeSDP fail; there is no shape validation after parsing. -/
theorem decodeSDP_error_propagation :
    (∀ tok, atobBytes tok = none → decodeSDP tok = none) ∧
    (∀ tok bs, atobBytes tok = some bs → utf8Decode bs = none → decodeSDP tok = none) ∧
    (∀ tok bs s, atobBytes tok = some bs → utf8Decode bs = some s → jsonParse s = none →
      decodeSDP tok = none) ∧
    (∀ tok bs s v, atobBytes tok = some bs → utf8Decode bs = some s → jsonParse s = some v →
      decodeSDP tok = some v) := by
  refine ⟨?_, ?_, ?_, ?_⟩
  · intro tok h; unfold decodeSDP; rw [h]; rfl
  · intro tok bs h1 h2; unfold decodeSDP; rw [h1]; simp only [Option.some_bind]; rw [h2]; rfl
  · intro tok bs s h1 h2 h3; unfold decodeSDP; rw [h1]; simp only [Option.some_bind]
    rw [h2]; simp only [Option.some_bind]; exact h3
  · intro tok bs s v h1 h2 h3; unfold decodeSDP; rw [h1]; simp only [Option.some_bind]
    rw [h2]; simp only [Option.some_bind]; exact h3

theorem decodeSDP_error_propagation_witness :
    atobBytes (codes "!!!!") = none ∧ decodeSDP (codes "!!!!") = none :=
  ⟨rfl, decodeSDP_error_propagation.1 (codes "!!!!") rfl⟩

theorem mapGet_set_self {α : Type} (m : List (List Nat × α)) (k : List Nat) (v : α) :
    mapGet (mapSet m k v) k = some v := by
  induction m with
  | nil => simp [mapSet, mapGet]
  | cons p rest ih =>
    obtain ⟨k', v'⟩ := p
    rw [mapSet]
    by_cases h : k' = k
    · rw [if_pos h, mapGet, if_pos rfl]
    · rw [if_neg h, mapGet, if_neg h, ih]

theorem mapGet_set_ne {α : Type} (m : List (List Nat × α)) (k k' : List Nat) (v : α)
    (h : k ≠ k') : mapGet (mapSet m k v) k' = mapGet m k' := by
  induction m with
  | nil => simp [mapSet, mapGet, if_neg h]
  | cons p rest ih =>
    obtain ⟨k2, v2⟩ := p
    rw [mapSet]
    by_cases h2 : k2 = k
    · rw [if_pos h2, mapGet, if_neg h, mapGet, h2, if_neg h]
    · rw [if_neg h2, mapGet, mapGet, ih]

theorem mapGet_delete_self {α : Type} (m : List (List Nat × α)) (k : List Nat) :
    mapGet (mapDelete m k) k = none := by
  induction m with
  | nil => rfl
  | cons p rest ih =>
    obtain ⟨k', v'⟩ := p
    rw [mapDelete]
    by_cases h : k' = k
    · rw [if_pos h, ih]
    · rw [if_neg h, mapGet, if_neg h, ih]

/-- C3 (claim): after two consecutive offers the registry has exactly the
second id pending, and the first record remains, not yet connected. -/
theorem createOffer_single_pending (st : NetState) (id1 id2 : List Nat) (d1 d2 : Desc)
    (hne : id1 ≠ id2) :
    (createOffer (createOffer st id1 d1).1 id2 d2).1.pendingPeerId = some id2 ∧
    mapGet (createOffer (createOffer st id1 d1).1 id2 d2).1.peers id1
      = some { chState := .connecting, name := none } := by
  unfold createOffer
  refine ⟨rfl, ?_⟩
  simp only []
  rw [mapGet_set_ne _ _ _ _ (fun h => hne h.symm), mapGet_set_self]

theorem createOffer_single_pending_witness :
    codes "a" ≠ codes "b" ∧
    (createOffer (createOffer ⟨[], none, none, [], []⟩ (codes "a") ⟨codes "offer", codes "x"⟩).1
        (codes "b") ⟨codes "offer", codes "y"⟩).1.pendingPeerId = some (codes "b") ∧
    mapGet (createOffer (createOffer ⟨[], none, none, [], []⟩ (codes "a")
        ⟨codes "offer", codes "x"⟩).1 (codes "b") ⟨codes "offer", codes "y"⟩).1.peers (codes "a")
      = some { chState := .connecting, name := none } := by
  have h := createOffer_single_pending ⟨[], none, none, [], []⟩ (codes "a") (codes "b")
    ⟨codes "offer", codes "x"⟩ ⟨codes "offer", codes "y"⟩ (by decide)
  exact ⟨by decide, h.1, h.2⟩

/-- C5 (claim): with an empty pending slot, acceptAnswer fails with the
no-pending error for every token and leaves the state unchanged. -/
theorem acceptAnswer_no_pending (st : NetState) (tok : List Nat) (h : pendingEmpty st) :
    acceptAnswer st tok = (some .noPending, st) := by
  unfold pendingEmpty at h
  unfold acceptAnswer
  cases hpp : st.pendingPeerId with
  | none => rfl
  | some id =>
    rw [hpp] at h
    simp only [Option.some_bind] at h
    simp only []
    rw [h]

theorem acceptAnswer_no_pending_witness :
    pendingEmpty ⟨[], none, none, [], []⟩ ∧
    acceptAnswer ⟨[], none, none, [], []⟩ (codes "whatever")
      = (some .noPending, ⟨[], none, none, [], []⟩) :=
  ⟨by unfold pendingEmpty; rfl, acceptAnswer_no_pending _ _ (by unfold pendingEmpty; rfl)⟩


/-- C4 counterexample: on a state with pending peer b, a successful
acceptAnswer leaves pendingPeerId set to b — it does not become empty. -/
theorem acceptAnswer_keeps_pending :
    (acceptAnswer ⟨[(codes "b", ⟨.connecting, none⟩)], some (codes "b"), none, [], []⟩
        (codes "eyJ0eXBlIjoiYW5zd2VyIiwic2RwIjoidj0wIn0=")).1 = none ∧
    (acceptAnswer ⟨[(codes "b", ⟨.connecting, none⟩)], some (codes "b"), none, [], []⟩
        (codes "eyJ0eXBlIjoiYW5zd2VyIiwic2RwIjoidj0wIn0=")).2.pendingPeerId
      = some (codes "b") := by
  constructor <;> rfl

/-- C4 (amended): a successful acceptAnswer leaves the registry state,
including pendingPeerId, unchanged; a subsequent createOffer still
creates a fresh pending slot by overwriting the still-set one. -/
theorem acceptAnswer_success_state (st : NetState) (tok id newId : List Nat)
    (r : PeerRecord) (v : JValue) (d : Desc)
    (hp : st.pendingPeerId = some id) (hr : mapGet st.peers id = some r)
    (hd : decodeSDP tok = some v) :
    acceptAnswer st tok = (none, st) ∧
    (createOffer st newId d).1.pendingPeerId = some newId := by
  unfold acceptAnswer
  rw [hp]
  simp only []
  rw [hr]
  simp only []
  rw [hd]
  exact ⟨rfl, rfl⟩

theorem acceptAnswer_success_state_witness :
    (⟨[(codes "b", ⟨.connecting, none⟩)], some (codes "b"), none, [], []⟩ : NetState).pendingPeerId
        = some (codes "b") ∧
    mapGet (⟨[(codes "b", ⟨.connecting, none⟩)], some (codes "b"), none, [], []⟩ : NetState).peers
        (codes "b") = some ⟨.connecting, none⟩ ∧
    acceptAnswer ⟨[(codes "b", ⟨.connecting, none⟩)], some (codes "b"), none, [], []⟩
        (codes "eyJ0eXBlIjoiYW5zd2VyIiwic2RwIjoidj0wIn0=")
      = (none, ⟨[(codes "b", ⟨.connecting, none⟩)], some (codes "b"), none, [], []⟩) ∧
    (createOffer ⟨[(codes "b", ⟨.connecting, none⟩)], some (codes "b"), none, [], []⟩
        (codes "c") ⟨codes "offer", codes "x"⟩).1.pendingPeerId = some (codes "c") := by
  have h := acceptAnswer_success_state
    ⟨[(codes "b", ⟨.connecting, none⟩)], some (codes "b"), none, [], []⟩
    (codes "eyJ0eXBlIjoiYW5zd2VyIiwic2RwIjoidj0wIn0=") (codes "b") (codes "c")
    ⟨.connecting, none⟩ (descObj ⟨codes "answer", codes "v=0"⟩) ⟨codes "offer", codes "x"⟩
    rfl rfl rfl
  exact ⟨rfl, rfl, h.1, h.2⟩

/-- C6 (amended): on the host side a connectivity loss yields exactly one
disconnect notification even when both the connectivity-state path and
the channel-close path fire (removal is idempotent, and the record is
gone afterwards); on the joining side each path emits its own
notification, so both paths firing yield two. -/
theorem disconnect_notifications (st : NetState) (pid : List Nat) (r : PeerRecord)
    (hr : mapGet st.peers pid = some r) :
    (handlePeerDisconnect st pid).2 = [.cbPeerDisconnected pid] ∧
    handlePeerDisconnect (handlePeerDisconnect st pid).1 pid
      = ((handlePeerDisconnect st pid).1, []) ∧
    mapGet (handlePeerDisconnect st pid).1.peers pid = none ∧
    (∀ st' : NetState,
      (peerIceStateChange st' .disconnected).2
          ++ (peerChannelClose (peerIceStateChange st' .disconnected).1).2
        = [.cbPeerDisconnected (codes "host"), .cbPeerDisconnected (codes "host")]) := by
  unfold handlePeerDisconnect
  rw [hr]
  simp only []
  rw [mapGet_delete_self]
  refine ⟨by trivial, by trivial, by trivial, ?_⟩
  intro st'
  unfold peerIceStateChange peerChannelClose
  rw [if_pos (Or.inl rfl)]
  rfl

theorem disconnect_notifications_witness :
    mapGet (⟨[(codes "p", ⟨.opened, none⟩)], none, none, [], []⟩ : NetState).peers (codes "p")
        = some ⟨.opened, none⟩ ∧
    (handlePeerDisconnect ⟨[(codes "p", ⟨.opened, none⟩)], none, none, [], []⟩ (codes "p")).2
      = [.cbPeerDisconnected (codes "p")] ∧
    mapGet (handlePeerDisconnect ⟨[(codes "p", ⟨.opened, none⟩)], none, none, [], []⟩
        (codes "p")).1.peers (codes "p") = none := by
  have h := disconnect_notifications ⟨[(codes "p", ⟨.opened, none⟩)], none, none, [], []⟩
    (codes "p") ⟨.opened, none⟩ rfl
  exact ⟨rfl, h.1, h.2.2.1⟩

/-- C6 counterexample: on the joining side, the ICE-state path firing and
then the channel-close path firing for the same loss produce two
disconnected-from-host notifications, not one. -/
theorem peer_disconnect_double_notification :
    (peerIceStateChange ⟨[], none, some .opened, [], []⟩ .disconnected).2
        ++ (peerChannelClose
            (peerIceStateChange ⟨[], none, some .opened, [], []⟩ .disconnected).1).2
      = [.cbPeerDisconnected (codes "host"), .cbPeerDisconnected (codes "host")] ∧
    ((peerIceStateChange ⟨[], none, some .opened, [], []⟩ .disconnected).2
        ++ (peerChannelClose
            (peerIceStateChange ⟨[], none, some .opened, [], []⟩ .disconnected).1).2).length
      ≠ 1 := by
  refine ⟨rfl, ?_⟩
  intro h
  have h2 : ((peerIceStateChange (⟨[], none, some .opened, [], []⟩ : NetState) .disconnected).2
      ++ (peerChannelClose
          (peerIceStateChange (⟨[], none, some .opened, [], []⟩ : NetState) .disconnected).1).2).length
      = 2 := rfl
  omega

/-- C7 (claim): a frame that fails to parse as JSON is dropped with no
state change and no callback, on both the host and the peer side. -/
theorem malformed_frame_dropped (st : NetState) (pid frame : List Nat) (now : Int)
    (h : jsonParse frame = none) :
    hostOnFrame st pid frame now = (st, []) ∧ peerOnFrame st frame now = (st, []) := by
  unfold hostOnFrame peerOnFrame
  rw [h]
  exact ⟨rfl, rfl⟩

theorem malformed_frame_dropped_witness :
    jsonParse (codes "\x7bnot-json") = none ∧
    hostOnFrame ⟨[], none, none, [], []⟩ (codes "p") (codes "\x7bnot-json") 0
      = (⟨[], none, none, [], []⟩, []) ∧
    peerOnFrame ⟨[], none, none, [], []⟩ (codes "\x7bnot-json") 0
      = (⟨[], none, none, [], []⟩, []) := by
  have h := malformed_frame_dropped ⟨[], none, none, [], []⟩ (codes "p") (codes "\x7bnot-json") 0 rfl
  exact ⟨rfl, h.1, h.2⟩


/-- C8 (claim): a ping is answered with a pong echoing the timestamp
unchanged; a pong processed at local time `now` stores `now - ts` for the
sender; that latency is non-negative whenever `now` is at or after `ts`. -/
theorem latency_ping_pong (st : NetState) (msg : JValue) (now ts : Int) (pid : List Nat) :
    (jType msg = some (codes "ping") → jGet msg (codes "ts") = some (.num ts) →
      st.hostCh = some .opened →
      handlePeerMessage st msg now
        = (st, [.sendHost (.obj [(codes "type", .str (codes "pong")),
            (codes "ts", .num ts)])])) ∧
    (jType msg = some (codes "pong") → jGet msg (codes "ts") = some (.num ts) →
      handleHostMessage st pid msg now
        = ({ st with latency := mapSet st.latency pid (some (now - ts)) }, [])) ∧
    (ts ≤ now → 0 ≤ now - ts) := by
  refine ⟨?_, ?_, ?_⟩
  · intro h1 h2 hch
    unfold handlePeerMessage
    rw [h1]
    rw [if_neg (by decide), if_pos rfl]
    unfold sendToHostF
    rw [hch]
    unfold pongReply
    rw [h2]
  · intro h1 h2
    unfold handleHostMessage
    rw [h1]
    rw [if_neg (by decide), if_pos rfl]
    unfold latVal tsCoerce
    rw [h2]
    rfl
  · intro h
    omega

theorem latency_ping_pong_witness :
    jType (.obj [(codes "type", .str (codes "ping")), (codes "ts", .num 1000)])
        = some (codes "ping") ∧
    jType (.obj [(codes "type", .str (codes "pong")), (codes "ts", .num 1000)])
        = some (codes "pong") ∧
    handlePeerMessage ⟨[], none, some .opened, [], []⟩
        (.obj [(codes "type", .str (codes "ping")), (codes "ts", .num 1000)]) 1042
      = (⟨[], none, some .opened, [], []⟩,
         [.sendHost (.obj [(codes "type", .str (codes "pong")), (codes "ts", .num 1000)])]) ∧
    handleHostMessage ⟨[], none, none, [], []⟩ (codes "p")
        (.obj [(codes "type", .str (codes "pong")), (codes "ts", .num 1000)]) 1042
      = (⟨[], none, none, [], [(codes "p", some 42)]⟩, []) ∧
    (0 : Int) ≤ 1042 - 1000 := by
  have hping := (latency_ping_pong ⟨[], none, some .opened, [], []⟩
      (.obj [(codes "type", .str (codes "ping")), (codes "ts", .num 1000)])
      1042 1000 (codes "p")).1 rfl rfl rfl
  have hpong := (latency_ping_pong ⟨[], none, none, [], []⟩
      (.obj [(codes "type", .str (codes "pong")), (codes "ts", .num 1000)])
      1042 1000 (codes "p")).2.1 rfl rfl
  have hnn := (latency_ping_pong ⟨[], none, none, [], []⟩
      (.obj [(codes "type", .str (codes "pong")), (codes "ts", .num 1000)])
      1042 1000 (codes "p")).2.2 (by norm_num)
  refine ⟨rfl, rfl, hping, ?_, hnn⟩
  have h42 : (1042 : Int) - 1000 = 42 := by norm_num
  rw [hpong, h42]
  rfl

/-- C10 (claim): two game states agreeing on the nine non-secret fields
produce identical snapshots, identical sync envelopes, and identical
broadcast effects, whatever their imposter index, current word or local
role fields are. -/
theorem sync_snapshot_nonsecret (s1 s2 : GameState)
    (hp : s1.players = s2.players) (hc : s1.category = s2.category)
    (hph : s1.currentPhase = s2.currentPhase) (hr : s1.round = s2.round)
    (hcpi : s1.currentPlayerIndex = s2.currentPlayerIndex)
    (hclue : s1.cluePlayerIndex = s2.cluePlayerIndex)
    (hsp : s1.startingPlayerIndex = s2.startingPlayerIndex)
    (hts : s1.timerSeconds = s2.timerSeconds) (htr : s1.timerRunning = s2.timerRunning) :
    serialiseForSync s1 = serialiseForSync s2 ∧ syncMessage s1 = syncMessage s2 ∧
    ∀ st : NetState, syncTick st s1 = syncTick st s2 := by
  have h : serialiseForSync s1 = serialiseForSync s2 := by
    unfold serialiseForSync
    rw [hp, hc, hph, hr, hcpi, hclue, hsp, hts, htr]
  refine ⟨h, ?_, ?_⟩
  · unfold syncMessage
    rw [h]
  · intro st
    unfold syncTick syncMessage
    rw [h]

theorem sync_snapshot_nonsecret_witness :
    (GameState.mk (codes "local") [codes "ann"] (codes "household") none (-1) 0 false
        (codes "CLUES") 1 [] 0 (-1) 0 false [] false [] false none none false).imposterIndex
      ≠ (GameState.mk (codes "local") [codes "ann"] (codes "household")
          (some ⟨codes "dog", codes "animal"⟩) 2 0 false
          (codes "CLUES") 1 [] 0 (-1) 0 false [] false [] true none none false).imposterIndex ∧
    serialiseForSync (GameState.mk (codes "local") [codes "ann"] (codes "household") none (-1) 0
        false (codes "CLUES") 1 [] 0 (-1) 0 false [] false [] false none none false)
      = serialiseForSync (GameState.mk (codes "local") [codes "ann"] (codes "household")
          (some ⟨codes "dog", codes "animal"⟩) 2 0 false
          (codes "CLUES") 1 [] 0 (-1) 0 false [] false [] true none none false) ∧
    syncMessage (GameState.mk (codes "local") [codes "ann"] (codes "household") none (-1) 0 false
        (codes "CLUES") 1 [] 0 (-1) 0 false [] false [] false none none false)
      = syncMessage (GameState.mk (codes "local") [codes "ann"] (codes "household")
          (some ⟨codes "dog", codes "animal"⟩) 2 0 false
          (codes "CLUES") 1 [] 0 (-1) 0 false [] false [] true none none false) := by
  have h := sync_snapshot_nonsecret
    (GameState.mk (codes "local") [codes "ann"] (codes "household") none (-1) 0 false
      (codes "CLUES") 1 [] 0 (-1) 0 false [] false [] false none none false)
    (GameState.mk (codes "local") [codes "ann"] (codes "household")
      (some ⟨codes "dog", codes "animal"⟩) 2 0 false
      (codes "CLUES") 1 [] 0 (-1) 0 false [] false [] true none none false)
    rfl rfl rfl rfl rfl rfl rfl rfl rfl
  exact ⟨by decide, h.1, h.2.1⟩

end Vague
